import Mathlib

/-!
Verification of the attribution engine of `dd_rca` (log clustering, window
construction, APM statistics and candidate scoring).  The Python modules
`dd_rca/analysis/logs.py`, `dd_rca/analysis/apm.py`, `dd_rca/analysis/scoring.py`,
`dd_rca/windows.py` and `dd_rca/pipeline.py` are shallowly embedded below:

* Python floats are modelled as rationals (`ℚ`), Python ints as `ℤ`/`ℕ`;
* Python dicts are insertion-ordered association lists;
* regular-expression substitution (`re.sub`) is embedded as an explicit
  left-to-right scanner with the word-boundary and greedy/backtracking
  semantics of the concrete patterns used by the source;
* `hashlib.sha1` is implemented directly (bytes → hex digest);
* timestamps are modelled as integer epoch seconds (the source uses
  `datetime` arithmetic, exact at this granularity for whole-second inputs).

Character classes (`\w`, `\s`, `str.strip`) are modelled over ASCII; the
source relies on them only for ASCII text.
-/
set_option maxHeartbeats 4000000

set_option maxRecDepth 10000

namespace DDRca

/-! ### Character classes (ASCII models of `\w`, `\s`, `\d`, hex digits) -/
/-- ASCII whitespace, the model of Python's `\s` and `str.strip` class. -/
def isWsChar (c : Char) : Bool :=
  c == ' ' || c == '\t' || c == '\n' || c == '\x0d' || c == '\x0b' || c == '\x0c'

/-- Decimal digit, the model of `\d`. -/
def isDigitCh (c : Char) : Bool := '0' ≤ c && c ≤ '9'

/-- Word character `[A-Za-z0-9_]`, the model of `\w` used by `\b`. -/
def isWordCh (c : Char) : Bool :=
  ('a' ≤ c && c ≤ 'z') || ('A' ≤ c && c ≤ 'Z') || isDigitCh c || c == '_'

/-- Hexadecimal digit, case-insensitive (the source compiles its patterns with `re.I`). -/
def isHexCh (c : Char) : Bool :=
  isDigitCh c || ('a' ≤ c && c ≤ 'f') || ('A' ≤ c && c ≤ 'F')

/-- Model of Python `str.strip()` (drop leading and trailing whitespace). -/
def pystrip (s : String) : String :=
  String.mk (((s.data.dropWhile fun c => isWsChar c).reverse.dropWhile fun c => isWsChar c).reverse)

/-- Model of Python slicing `s[:n]` (by code points). -/
def pytake (n : Nat) (s : String) : String := String.mk (s.data.take n)

/-- Lexicographic comparison of code-point lists. -/
def charListLt : List Char → List Char → Bool
  | [], [] => false
  | [], _ :: _ => true
  | _ :: _, [] => false
  | c :: cs, d :: ds =>
      if c.toNat < d.toNat then true
      else if d.toNat < c.toNat then false
      else charListLt cs ds

/-- Model of Python `s < t` on strings: lexicographic by code point. -/
def pystrLt (s t : String) : Bool := charListLt s.data t.data

/-! ### `re.sub` scanner

`subScan m repl` walks the character list left to right keeping the previous
original character (for `\b`).  At each position the matcher `m` either
matches a non-empty prefix — which is replaced by `repl`, scanning resuming
after it — or the current character is copied.  This is exactly the
semantics of `re.sub` for the patterns of `logs.py` (all of which match at
least one character).  The `fuel` argument only serves termination; it is
always instantiated with more steps than the scan can take. -/
def subScan (m : Option Char → List Char → Option (List Char × List Char))
    (repl : List Char) : Nat → Option Char → List Char → List Char
  | 0, _, l => l
  | _ + 1, _, [] => []
  | fuel + 1, prev, c :: cs =>
    match m prev (c :: cs) with
    | some (matched, rest) =>
        repl ++ subScan m repl fuel (matched.getLast?.orElse fun _ => some c) rest
    | none => c :: subScan m repl fuel (some c) cs

/-- Run one substitution pass over a string. -/
def runSub (m : Option Char → List Char → Option (List Char × List Char))
    (repl : String) (s : String) : String :=
  String.mk (subScan m repl.data (s.data.length + 1) none s.data)

/-- Boundary `\b` to the left of the match: start of string or previous char not a word char. -/
def atBoundary (prev : Option Char) : Bool :=
  match prev with
  | none => true
  | some c => !isWordCh c

/-- Boundary `\b` to the right of the match: end of string or next char not a word char. -/
def endBoundary (rest : List Char) : Bool :=
  match rest with
  | [] => true
  | c :: _ => !isWordCh c

/-- Take exactly `n` characters satisfying `p`. -/
def takeExact (p : Char → Bool) : Nat → List Char → Option (List Char × List Char)
  | 0, l => some ([], l)
  | _ + 1, [] => none
  | n + 1, c :: cs =>
      if p c then (takeExact p n cs).map (fun pr => (c :: pr.1, pr.2)) else none

/-- Take a maximal non-empty run of characters satisfying `p`. -/
def takeRun1 (p : Char → Bool) (l : List Char) : Option (List Char × List Char) :=
  match l with
  | [] => none
  | c :: cs => if p c then some (cs.takeWhile p |>.cons c, cs.dropWhile p) else none

/-- Expect one specific character. -/
def expectCh (c : Char) (l : List Char) : Option (List Char) :=
  match l with
  | d :: rest => if d == c then some rest else none
  | [] => none

/-! ### The four patterns of `logs.py` (lines 10-13) -/
/-- Matcher for `_UUID_RE`:
`\b[0-9a-f]{8}-[0-9a-f]{4}-[1-5][0-9a-f]{3}-[89ab][0-9a-f]{3}-[0-9a-f]{12}\b`
with `re.I`. -/
def uuidMatch (prev : Option Char) (l : List Char) : Option (List Char × List Char) :=
  if !atBoundary prev then none else
  match takeExact isHexCh 8 l with
  | none => none
  | some (g1, r1) =>
  match expectCh '-' r1 with
  | none => none
  | some r2 =>
  match takeExact isHexCh 4 r2 with
  | none => none
  | some (g2, r3) =>
  match expectCh '-' r3 with
  | none => none
  | some r4 =>
  match takeExact (fun c => '1' ≤ c && c ≤ '5') 1 r4 with
  | none => none
  | some (v, r5) =>
  match takeExact isHexCh 3 r5 with
  | none => none
  | some (g3, r6) =>
  match expectCh '-' r6 with
  | none => none
  | some r7 =>
  match takeExact (fun c => c == '8' || c == '9' || c == 'a' || c == 'b' || c == 'A' || c == 'B') 1 r7 with
  | none => none
  | some (w, r8) =>
  match takeExact isHexCh 3 r8 with
  | none => none
  | some (g4, r9) =>
  match expectCh '-' r9 with
  | none => none
  | some r10 =>
  match takeExact isHexCh 12 r10 with
  | none => none
  | some (g5, r11) =>
  if endBoundary r11 then
    some (g1 ++ '-' :: g2 ++ '-' :: v ++ g3 ++ '-' :: w ++ g4 ++ '-' :: g5, r11)
  else none

/-- Matcher for `_HEX_RE`: `\b0x[0-9a-f]+\b` with `re.I`.  The run of hex
digits is maximal; shortening it can never restore the trailing `\b`
(the boundary would fall between two word characters), so greedy matching
with a single end-boundary test is exactly the regex semantics. -/
def hexMatch (prev : Option Char) (l : List Char) : Option (List Char × List Char) :=
  if !atBoundary prev then none else
  match expectCh '0' l with
  | none => none
  | some r1 =>
  match r1 with
  | x :: r2 =>
      if x == 'x' || x == 'X' then
        match takeRun1 isHexCh r2 with
        | some (digits, rest) =>
            if endBoundary rest then some ('0' :: x :: digits, rest) else none
        | none => none
      else none
  | [] => none

/-- Matcher for `_NUM_RE`: `\b\d+\b`.  Same maximal-run argument as for
`hexMatch`. -/
def numMatch (prev : Option Char) (l : List Char) : Option (List Char × List Char) :=
  if !atBoundary prev then none else
  match takeRun1 isDigitCh l with
  | some (digits, rest) =>
      if endBoundary rest then some (digits, rest) else none
  | none => none

/-- Greedy candidates for `\d{1,3}`: lengths 3, 2, 1 in backtracking order. -/
def ipGroupCands (l : List Char) : List (List Char × List Char) :=
  [3, 2, 1].filterMap fun n => takeExact isDigitCh n l

/-- Tail of `_IP_RE` after the first digit group: `n` repetitions of
`\.\d{1,3}`, then `\b`; explores group lengths in greedy order with full
backtracking, as the regex engine does. -/
def ipTail : Nat → List Char → Option (List Char × List Char)
  | 0, rest => if endBoundary rest then some ([], rest) else none
  | n + 1, rest =>
    match expectCh '.' rest with
    | none => none
    | some r1 =>
        (ipGroupCands r1).findSome? fun pr =>
          (ipTail n pr.2).map fun tl => ('.' :: pr.1 ++ tl.1, tl.2)

/-- Matcher for `_IP_RE`: `\b\d{1,3}(?:\.\d{1,3}){3}\b`. -/
def ipMatch (prev : Option Char) (l : List Char) : Option (List Char × List Char) :=
  if !atBoundary prev then none else
  (ipGroupCands l).findSome? fun pr =>
    (ipTail 3 pr.2).map fun tl => (pr.1 ++ tl.1, tl.2)

/-- Collapse of `_WS_RE` (`\s+` → single space): every maximal whitespace
run becomes one `' '`.  The boolean flag records whether the previous
character was whitespace (i.e. whether we are inside a run). -/
def collapseWsAux : Bool → List Char → List Char
  | _, [] => []
  | prevWs, c :: cs =>
      if isWsChar c then
        if prevWs then collapseWsAux true cs else ' ' :: collapseWsAux true cs
      else c :: collapseWsAux false cs

/-- Model of `_WS_RE.sub(" ", s)`. -/
def collapseWs (s : String) : String := String.mk (collapseWsAux false s.data)

/-- Model of `_UUID_RE.sub("<uuid>", s)`. -/
def subUuid (s : String) : String := runSub uuidMatch "<uuid>" s

/-- Model of `_HEX_RE.sub("<hex>", s)`. -/
def subHex (s : String) : String := runSub hexMatch "<hex>" s

/-- Model of `_IP_RE.sub("<ip>", s)`. -/
def subIp (s : String) : String := runSub ipMatch "<ip>" s

/-- Model of `_NUM_RE.sub("<num>", s)`. -/
def subNum (s : String) : String := runSub numMatch "<num>" s

/-- Embeds `normalize_message` (logs.py:28-35).  The argument is already a
string, so the source's `_safe_str(msg)` is the identity here. -/
def normalize_message (msg : String) : String :=
  let s := pystrip msg
  let s := subUuid s
  let s := subHex s
  let s := subIp s
  let s := subNum s
  let s := collapseWs s
  pytake 500 s

/-! ### SHA-1 (model of `hashlib.sha1(... .encode("utf-8", errors="ignore")).hexdigest()`)

Implemented over `Nat` with explicit `% 2^32`.  Lean `Char`s are valid
Unicode scalars, so the `errors="ignore"` mode never drops anything. -/
/-- UTF-8 encoding of one scalar value, as a list of bytes. -/
def utf8Char (c : Char) : List Nat :=
  let n := c.toNat
  if n < 128 then [n]
  else if n < 2048 then [192 + n / 64, 128 + n % 64]
  else if n < 65536 then [224 + n / 4096, 128 + (n / 64) % 64, 128 + n % 64]
  else [240 + n / 262144, 128 + (n / 4096) % 64, 128 + (n / 64) % 64, 128 + n % 64]

/-- UTF-8 encoding of a string. -/
def utf8Bytes (s : String) : List Nat :=
  s.data.foldr (fun c acc => utf8Char c ++ acc) []

/-- Rotate a 32-bit word left by `n` bits. -/
def rotl (n x : Nat) : Nat := ((x <<< n) ||| (x >>> (32 - n))) % 4294967296

/-- SHA-1 padding: `0x80`, zeros to 56 mod 64, then the bit length as 8
big-endian bytes. -/
def sha1pad (msg : List Nat) : List Nat :=
  let len := msg.length
  let bitlen := 8 * len
  let padZeros := (55 + 64 - len % 64) % 64
  msg ++ 128 :: List.replicate padZeros 0 ++
    [(bitlen >>> 56) % 256, (bitlen >>> 48) % 256, (bitlen >>> 40) % 256, (bitlen >>> 32) % 256,
     (bitlen >>> 24) % 256, (bitlen >>> 16) % 256, (bitlen >>> 8) % 256, bitlen % 256]

/-- Big-endian 32-bit words from bytes. -/
def bytesToWords : List Nat → List Nat
  | a :: b :: c :: d :: rest => (((a * 256 + b) * 256 + c) * 256 + d) :: bytesToWords rest
  | _ => []

/-- Extend the 16-word schedule to 80 words; `rw` holds the words produced
so far in reverse order (head = most recent). -/
def sha1ExtendRev (rw : List Nat) : Nat → List Nat
  | 0 => rw
  | n + 1 =>
      let g := fun k => rw.getD k 0
      sha1ExtendRev (rotl 1 (g 2 ^^^ g 7 ^^^ g 13 ^^^ g 15) :: rw) n

/-- Round function. -/
def sha1f (i b c d : Nat) : Nat :=
  if i < 20 then (b &&& c) ||| ((b ^^^ 4294967295) &&& d)
  else if i < 40 then b ^^^ c ^^^ d
  else if i < 60 then (b &&& c) ||| (b &&& d) ||| (c &&& d)
  else b ^^^ c ^^^ d

/-- Round constants. -/
def sha1k (i : Nat) : Nat :=
  if i < 20 then 1518500249
  else if i < 40 then 1859775393
  else if i < 60 then 2400959708
  else 3395469782

/-- The 80 compression rounds over the word schedule. -/
def sha1Rounds : Nat → List Nat → Nat × Nat × Nat × Nat × Nat → Nat × Nat × Nat × Nat × Nat
  | _, [], st => st
  | i, wi :: ws, (a, b, c, d, e) =>
      let t := (rotl 5 a + sha1f i b c d + e + sha1k i + wi) % 4294967296
      sha1Rounds (i + 1) ws (t, a, rotl 30 b, c, d)

/-- Process one 64-byte chunk. -/
def sha1Chunk (chunk : List Nat) (h : Nat × Nat × Nat × Nat × Nat) : Nat × Nat × Nat × Nat × Nat :=
  let w16 := bytesToWords chunk
  let w := (sha1ExtendRev w16.reverse 64).reverse
  let (h0, h1, h2, h3, h4) := h
  let (a, b, c, d, e) := sha1Rounds 0 w h
  ((h0 + a) % 4294967296, (h1 + b) % 4294967296, (h2 + c) % 4294967296,
   (h3 + d) % 4294967296, (h4 + e) % 4294967296)

/-- Fold over all 64-byte chunks (`fuel` bounds the number of chunks and is
always instantiated generously). -/
def sha1Loop : Nat → List Nat → Nat × Nat × Nat × Nat × Nat → Nat × Nat × Nat × Nat × Nat
  | 0, _, h => h
  | _ + 1, [], h => h
  | fuel + 1, bytes, h => sha1Loop fuel (bytes.drop 64) (sha1Chunk (bytes.take 64) h)

/-- Lower-case hex digit. -/
def hexDigit (n : Nat) : Char :=
  if n < 10 then Char.ofNat (48 + n) else Char.ofNat (87 + n)

/-- Eight hex digits of a 32-bit word, most significant first. -/
def wordHex (w : Nat) : List Char :=
  [hexDigit ((w >>> 28) % 16), hexDigit ((w >>> 24) % 16), hexDigit ((w >>> 20) % 16),
   hexDigit ((w >>> 16) % 16), hexDigit ((w >>> 12) % 16), hexDigit ((w >>> 8) % 16),
   hexDigit ((w >>> 4) % 16), hexDigit (w % 16)]

/-- Full 40-character SHA-1 hex digest of a string's UTF-8 bytes. -/
def sha1Hex (s : String) : String :=
  let padded := sha1pad (utf8Bytes s)
  let (h0, h1, h2, h3, h4) :=
    sha1Loop (padded.length / 64 + 1) padded (1732584193, 4023233417, 2562383102, 271733878, 3285377520)
  String.mk (wordHex h0 ++ wordHex h1 ++ wordHex h2 ++ wordHex h3 ++ wordHex h4)

/-- Model of `hashlib.sha1(text.encode(...)).hexdigest()[:12]`, used both by
`fingerprint` (logs.py:38-40) and for the stack hash (logs.py:82). -/
def sha1Hex12 (s : String) : String := pytake 12 (sha1Hex s)

/-- Embeds `fingerprint` (logs.py:38-40). -/
def fingerprint (template : String) : String := sha1Hex12 template

/-! ### Python values and dicts

The engine receives deserialized JSON-ish records (`Dict[str, Any]`).  We
model such values by `PyVal`: `none` is Python `None`, dicts are
insertion-ordered association lists. -/
inductive PyVal where
  | none : PyVal
  | str : String → PyVal
  | int : ℤ → PyVal
  | float : ℚ → PyVal
  | bool : Bool → PyVal
  | dict : List (String × PyVal) → PyVal

mutual

/-- Decidable equality of `PyVal` (the nested inductive defeats `deriving`). -/
def PyVal.deq : (a b : PyVal) → Decidable (a = b)
  | .none, .none => isTrue rfl
  | .str s, .str t =>
      if h : s = t then isTrue (h ▸ rfl) else isFalse fun e => h (PyVal.str.inj e)
  | .int m, .int n =>
      if h : m = n then isTrue (h ▸ rfl) else isFalse fun e => h (PyVal.int.inj e)
  | .float p, .float q =>
      if h : p = q then isTrue (h ▸ rfl) else isFalse fun e => h (PyVal.float.inj e)
  | .bool a, .bool b =>
      if h : a = b then isTrue (h ▸ rfl) else isFalse fun e => h (PyVal.bool.inj e)
  | .dict es, .dict fs =>
      match PyVal.deqEntries es fs with
      | isTrue h => isTrue (h ▸ rfl)
      | isFalse h => isFalse fun e => h (PyVal.dict.inj e)
  | .none, .str _ => isFalse nofun
  | .none, .int _ => isFalse nofun
  | .none, .float _ => isFalse nofun
  | .none, .bool _ => isFalse nofun
  | .none, .dict _ => isFalse nofun
  | .str _, .none => isFalse nofun
  | .str _, .int _ => isFalse nofun
  | .str _, .float _ => isFalse nofun
  | .str _, .bool _ => isFalse nofun
  | .str _, .dict _ => isFalse nofun
  | .int _, .none => isFalse nofun
  | .int _, .str _ => isFalse nofun
  | .int _, .float _ => isFalse nofun
  | .int _, .bool _ => isFalse nofun
  | .int _, .dict _ => isFalse nofun
  | .float _, .none => isFalse nofun
  | .float _, .str _ => isFalse nofun
  | .float _, .int _ => isFalse nofun
  | .float _, .bool _ => isFalse nofun
  | .float _, .dict _ => isFalse nofun
  | .bool _, .none => isFalse nofun
  | .bool _, .str _ => isFalse nofun
  | .bool _, .int _ => isFalse nofun
  | .bool _, .float _ => isFalse nofun
  | .bool _, .dict _ => isFalse nofun
  | .dict _, .none => isFalse nofun
  | .dict _, .str _ => isFalse nofun
  | .dict _, .int _ => isFalse nofun
  | .dict _, .float _ => isFalse nofun
  | .dict _, .bool _ => isFalse nofun

/-- Decidable equality of dict entry lists. -/
def PyVal.deqEntries : (es fs : List (String × PyVal)) → Decidable (es = fs)
  | [], [] => isTrue rfl
  | [], _ :: _ => isFalse nofun
  | _ :: _, [] => isFalse nofun
  | (k, v) :: es, (k2, v2) :: fs =>
      if hk : k = k2 then
        match PyVal.deq v v2 with
        | isTrue hv =>
            match PyVal.deqEntries es fs with
            | isTrue ht => isTrue (by rw [hk, hv, ht])
            | isFalse ht => isFalse fun e => ht (List.cons.inj e).2
        | isFalse hv => isFalse fun e => hv (Prod.mk.inj (List.cons.inj e).1).2
      else isFalse fun e => hk (Prod.mk.inj (List.cons.inj e).1).1
end

instance : DecidableEq PyVal := PyVal.deq

/-- A Python dict. -/
abbrev PyDict := List (String × PyVal)

/-- Model of `d.get(k)` (default `None`). -/
def dget (d : PyDict) (k : String) : PyVal := (d.lookup k).getD .none

/-- Python truthiness of a value. -/
def truthy : PyVal → Bool
  | .none => false
  | .str s => s ≠ ""
  | .int n => n ≠ 0
  | .float q => q ≠ 0
  | .bool b => b
  | .dict es => !es.isEmpty

/-- Model of Python `a or b` (first operand when truthy, else second). -/
def pyOr (a b : PyVal) : PyVal := if truthy a then a else b

/-- Model of `isinstance(v, dict)`. -/
def isDict : PyVal → Bool
  | .dict _ => true
  | _ => false

/-- Entries of a value when it is a dict, else `[]`.  Used to model
`item.get(k) or {}` followed by dict access: a falsy or missing value
becomes the empty dict (a truthy non-dict would crash the Python source,
a state we do not model). -/
def asDictEntries : PyVal → PyDict
  | .dict es => es
  | _ => []

/-- An ASCII apostrophe, kept out of string literals. -/
def squote : String := String.mk [Char.ofNat 39]

/-- Model of Python `str(x)`/`repr(x)` for the shapes that can appear in
telemetry records.  Integer, boolean and `None` rendering is exact; the
rendering of non-integral floats and the escaping inside `repr` of strings
are approximations (CPython's shortest-round-trip float formatting is not
modelled) — no claim exercises them. -/
def pyRepr : PyVal → String
  | .none => "None"
  | .bool true => "True"
  | .bool false => "False"
  | .int n => toString n
  | .float q => if q.den = 1 then toString q.num ++ ".0" else toString q.num ++ "/" ++ toString q.den
  | .str s => squote ++ s ++ squote
  | .dict es =>
      "\x7b" ++
        String.intercalate ", "
          (es.attach.map fun kv => squote ++ kv.1.1 ++ squote ++ ": " ++ pyRepr kv.1.2) ++
      "\x7d"
decreasing_by
  have h1 : sizeOf kv.1 < sizeOf es := List.sizeOf_lt_of_mem kv.2
  have h2 : sizeOf kv.1.2 < sizeOf kv.1 := by
    obtain ⟨a, b⟩ := kv.1
    simp only [Prod.mk.sizeOf_spec]
    omega
  simp only [PyVal.dict.sizeOf_spec]
  omega

/-- Embeds `_safe_str` (logs.py:17-25): `None` maps to `""`, strings map to
themselves, everything else to `str(x)`. -/
def logs_safe_str (x : PyVal) : String :=
  match x with
  | .none => ""
  | .str s => s
  | v => pyRepr v

/-! ### Stable sorting

`list.sort(key=..., reverse=True)` and `sorted(...)` are stable; insertion
sort with the comparisons below is the unique stable sort for the given
order, hence a faithful model. -/
/-- A pair of rationals under the lexicographic (Python tuple) order; used
as a sort key.  A bespoke structure keeps every comparison kernel-reducible. -/
structure QQ where
  fst : ℚ
  snd : ℚ
deriving DecidableEq

instance : LT QQ := ⟨fun p q => p.fst < q.fst ∨ (p.fst = q.fst ∧ p.snd < q.snd)⟩

instance : LE QQ := ⟨fun p q => p.fst < q.fst ∨ (p.fst = q.fst ∧ p.snd ≤ q.snd)⟩

instance : DecidableRel (fun p q : QQ => p < q) := fun _ _ =>
  inferInstanceAs (Decidable (_ ∨ _))

instance : DecidableRel (fun p q : QQ => p ≤ q) := fun _ _ =>
  inferInstanceAs (Decidable (_ ∨ _))

instance : LinearOrder QQ where
  le_refl p := Or.inr ⟨rfl, le_refl _⟩
  le_trans p q r := by
    rintro (h1 | ⟨e1, h1⟩) (h2 | ⟨e2, h2⟩)
    · exact Or.inl (lt_trans h1 h2)
    · exact Or.inl (e2 ▸ h1)
    · exact Or.inl (e1 ▸ h2)
    · exact Or.inr ⟨e1.trans e2, le_trans h1 h2⟩
  le_antisymm p q := by
    rintro (h1 | ⟨e1, h1⟩) (h2 | ⟨e2, h2⟩)
    · exact absurd h2 (lt_asymm h1)
    · exact absurd h1 (e2 ▸ lt_irrefl _)
    · exact absurd h2 (e1 ▸ lt_irrefl _)
    · obtain ⟨pa, pb⟩ := p
      obtain ⟨qa, qb⟩ := q
      simp only [QQ.mk.injEq]
      exact ⟨e1, le_antisymm h1 h2⟩
  le_total p q := by
    rcases lt_trichotomy p.fst q.fst with h | h | h
    · exact Or.inl (Or.inl h)
    · rcases le_total p.snd q.snd with hb | hb
      · exact Or.inl (Or.inr ⟨h, hb⟩)
      · exact Or.inr (Or.inr ⟨h.symm, hb⟩)
    · exact Or.inr (Or.inl h)
  lt_iff_le_not_le p q := by
    constructor
    · rintro (h | ⟨e, hb⟩)
      · refine ⟨Or.inl h, ?_⟩
        rintro (h2 | ⟨e2, -⟩)
        · exact lt_asymm h h2
        · exact absurd h (e2 ▸ lt_irrefl _)
      · refine ⟨Or.inr ⟨e, le_of_lt hb⟩, ?_⟩
        rintro (h2 | ⟨e2, hb2⟩)
        · exact absurd h2 (e ▸ lt_irrefl _)
        · exact absurd hb (not_lt_of_le hb2)
    · rintro ⟨h1 | ⟨e1, hb1⟩, h2⟩
      · exact Or.inl h1
      · refine Or.inr ⟨e1, lt_of_le_not_le hb1 ?_⟩
        intro hb2
        exact h2 (Or.inr ⟨e1.symm, hb2⟩)
  decidableLE := inferInstance
  decidableLT := inferInstance
  decidableEq := inferInstance

/-- Stable descending insertion: `x` goes after every element with strictly
larger key and before the first element whose key is `≤ key x` (so before
elements with equal keys, which all come from later list positions). -/
def insertDescBy {α κ : Type} [LinearOrder κ] (key : α → κ) (x : α) : List α → List α
  | [] => [x]
  | y :: l => if key x < key y then y :: insertDescBy key x l else x :: y :: l

/-- Model of `l.sort(key=key, reverse=True)`. -/
def sortDescBy {α κ : Type} [LinearOrder κ] (key : α → κ) : List α → List α
  | [] => []
  | x :: l => insertDescBy key x (sortDescBy key l)

/-- Stable ascending insertion (model of `sorted(l)` via `key`). -/
def insertAscBy {α κ : Type} [LinearOrder κ] (key : α → κ) (x : α) : List α → List α
  | [] => [x]
  | y :: l => if key y < key x then y :: insertAscBy key x l else x :: y :: l

/-- Model of `sorted(l, key=key)`. -/
def sortAscBy {α κ : Type} [LinearOrder κ] (key : α → κ) : List α → List α
  | [] => []
  | x :: l => insertAscBy key x (sortAscBy key l)

/-! ### Log clustering (`dd_rca/analysis/logs.py`) -/
/-- The bounded evidence sample stored for the first record of a cluster
(logs.py:92-100). -/
structure Sample where
  timestamp : Option String
  service : PyVal
  host : PyVal
  message : String
  error_type : Option String
  error_message : Option String
  stack_hash : Option String
deriving DecidableEq

/-- Embeds the `LogCluster` dataclass (models.py). -/
structure LogCluster where
  fingerprint : String
  template : String
  count_incident : Nat
  count_baseline : Nat
  first_seen : Option String
  sample : Option Sample
deriving DecidableEq

/-- Cluster maps: Python dicts fingerprint → cluster (insertion ordered). -/
abbrev ClusterMap := List (String × LogCluster)

/-- Update every binding of `fp` (a dict has at most one). -/
def updateAllF (m : ClusterMap) (fp : String) (f : LogCluster → LogCluster) : ClusterMap :=
  m.map fun kv => if kv.1 = fp then (kv.1, f kv.2) else kv

/-- Embeds logs.py:62, including the Python parse: the conditional
expression binds looser than `or`, so the line reads
`(attrs.get("error.type") or attrs.get("error", \x7b\x7d).get("type"))
if isinstance(attrs.get("error"), dict) else None` — the flat key is
consulted only when a nested `error` dict is present. -/
def err_type_raw (attrs : PyDict) : PyVal :=
  if isDict (dget attrs "error") then
    pyOr (dget attrs "error.type") (dget (asDictEntries (dget attrs "error")) "type")
  else .none

/-- Embeds logs.py:63 (same parse as `err_type_raw`). -/
def err_msg_raw (attrs : PyDict) : PyVal :=
  if isDict (dget attrs "error") then
    pyOr (dget attrs "error.message") (dget (asDictEntries (dget attrs "error")) "message")
  else .none

/-- Embeds logs.py:64 (same parse as `err_type_raw`). -/
def err_stack_raw (attrs : PyDict) : PyVal :=
  if isDict (dget attrs "error") then
    pyOr (dget attrs "error.stack") (dget (asDictEntries (dget attrs "error")) "stack")
  else .none

/-- Embeds logs.py:66-67: fall back to a string `exception` field. -/
def cluster_err_type (attrs : PyDict) : PyVal :=
  let t := err_type_raw attrs
  if !truthy t then
    match dget attrs "exception" with
    | .str s => .str s
    | _ => t
  else t

/-- Embeds logs.py:68-69: fall back to a string `stack_trace` field. -/
def cluster_err_stack (attrs : PyDict) : PyVal :=
  let t := err_stack_raw attrs
  if !truthy t then
    match dget attrs "stack_trace" with
    | .str s => .str s
    | _ => t
  else t

/-- The stack hash of a record (logs.py:79-83): the 12-hex SHA-1 of the
raw stack text when the stack is a string with non-whitespace content. -/
def record_stack_hash (attrs : PyDict) : Option String :=
  match cluster_err_stack attrs with
  | .str s => if pystrip s ≠ "" then some (sha1Hex12 s) else Option.none
  | _ => Option.none

/-- Embeds `_log_timestamp_iso` (logs.py:43-49). -/
def log_timestamp_iso (item : PyDict) : Option String :=
  match dget (asDictEntries (dget item "attributes")) "timestamp" with
  | .str s => if s ≠ "" then some s else none
  | _ => none

/-- The template of a record (logs.py:71-85): `type=`/`msg=`/`stack=` parts
joined with `" | "` and truncated to 500 characters. -/
def record_template (attrs : PyDict) : String :=
  let message := pyOr (dget attrs "message") (pyOr (dget attrs "msg") (.str ""))
  let et := cluster_err_type attrs
  let em := err_msg_raw attrs
  let p1 : List String :=
    if truthy et then ["type=" ++ normalize_message (logs_safe_str et)] else []
  let p2 : List String :=
    if truthy em then ["msg=" ++ normalize_message (logs_safe_str em)]
    else ["msg=" ++ normalize_message (logs_safe_str message)]
  let p3 : List String :=
    match record_stack_hash attrs with
    | some h => ["stack=" ++ h]
    | Option.none => []
  pytake 500 (String.intercalate " | " ((p1 ++ p2 ++ p3).filter (· ≠ "")))

/-- The cluster created for the first record of a new fingerprint
(logs.py:90-108), including the bounded evidence sample. -/
def record_new_cluster (item : PyDict) : LogCluster :=
  let attrs := asDictEntries (dget item "attributes")
  let message := pyOr (dget attrs "message") (pyOr (dget attrs "msg") (.str ""))
  let et := cluster_err_type attrs
  let em := err_msg_raw attrs
  let template := record_template attrs
  let ts := log_timestamp_iso item
  { fingerprint := fingerprint template, template := template,
    count_incident := 0, count_baseline := 0, first_seen := ts,
    sample := some
      { timestamp := ts, service := dget attrs "service", host := dget attrs "host",
        message := pytake 1000 (logs_safe_str message),
        error_type := if truthy et then some (pytake 200 (logs_safe_str et)) else Option.none,
        error_message := if truthy em then some (pytake 500 (logs_safe_str em)) else Option.none,
        stack_hash := record_stack_hash attrs } }

/-- The per-record mutation (logs.py:110-113): increment `count_incident`
and pull `first_seen` back to the earliest (lexicographically smallest)
timestamp. -/
def cluster_update (ts : Option String) (c : LogCluster) : LogCluster :=
  let c := { c with count_incident := c.count_incident + 1 }
  match ts with
  | some t =>
      if (match c.first_seen with | Option.none => true | some f => pystrLt t f) then
        { c with first_seen := some t }
      else c
  | Option.none => c

/-- Embeds the per-record body of `cluster_logs` (logs.py:54-113): one step
of the fold over the records.  The first record of a new fingerprint
appends a fresh cluster (Python dict insertion order); every record then
updates its cluster in place. -/
def cluster_step (m : ClusterMap) (item : PyDict) : ClusterMap :=
  let c0 := record_new_cluster item
  let fp := c0.fingerprint
  let m1 := if (m.lookup fp).isSome then m else m ++ [(fp, c0)]
  updateAllF m1 fp (cluster_update (log_timestamp_iso item))

/-- Embeds `cluster_logs` (logs.py:52-114). -/
def cluster_logs (logs : List PyDict) : ClusterMap :=
  logs.foldl cluster_step []

/-- One iteration of the loop of `merge_baseline_counts` (logs.py:122-127):
if the baseline fingerprint is present in the incident map, set that
cluster's `count_baseline`; otherwise drop it. -/
def merge_step (m : ClusterMap) (kv : String × LogCluster) : ClusterMap :=
  if (m.lookup kv.1).isSome then
    updateAllF m kv.1 fun c => { c with count_baseline := kv.2.count_incident }
  else m

/-- Embeds `merge_baseline_counts` (logs.py:117-128). -/
def merge_baseline_counts (incident_clusters : ClusterMap) (baseline_logs : List PyDict) :
    ClusterMap :=
  (cluster_logs baseline_logs).foldl merge_step incident_clusters

/-- Embeds the sort key `score` of `rank_clusters` (logs.py:134-142), the
Python tuple `(ratio, inc)`: `(9999.0, inc)` for new signatures,
`(inc/base, inc)` for recurring ones, `(0.0, inc)` otherwise. -/
def cluster_score (c : LogCluster) : QQ :=
  let inc := c.count_incident
  let base := c.count_baseline
  if base = 0 ∧ 0 < inc then QQ.mk (9999 : ℚ) (inc : ℚ)
  else if 0 < base then QQ.mk ((inc : ℚ) / (base : ℚ)) (inc : ℚ)
  else QQ.mk (0 : ℚ) (inc : ℚ)

/-- Embeds `rank_clusters` (logs.py:131-145): values of the cluster map,
stably sorted by the score tuple descending, truncated to `limit`. -/
def rank_clusters (clusters : ClusterMap) (limit : Nat) : List LogCluster :=
  (sortDescBy cluster_score (clusters.map Prod.snd)).take limit

/-! ### Windows (`dd_rca/windows.py`, `dd_rca/pipeline.py:212-217`)

Instants are integer epoch seconds (the value of `_parse_ts`); a
`timedelta(minutes=m)` is `60 * m` seconds. -/
/-- Embeds the `TimeWindow` dataclass (windows.py:26-45). -/
structure TimeWindow where
  start : ℤ
  «end» : ℤ
deriving DecidableEq

/-- Embeds the `Windows` dataclass (windows.py:48-59). -/
structure Windows where
  incident : TimeWindow
  baseline : TimeWindow
  anchor : ℤ
deriving DecidableEq

/-- Embeds `windows_ending_at` (windows.py:62-79); `anchor` is the already
parsed anchor instant, `baseline_minutes = Option.none` models the Python
default `None` (which falls back to `window_minutes`). -/
def windows_ending_at (anchor : ℤ) (window_minutes : ℤ) (baseline_minutes : Option ℤ) :
    Windows :=
  let win := 60 * window_minutes
  let base := 60 * (baseline_minutes.getD window_minutes)
  let incident_end := anchor
  let incident_start := incident_end - win
  let baseline_end := incident_start
  let baseline_start := baseline_end - base
  { anchor := anchor,
    incident := { start := incident_start, «end» := incident_end },
    baseline := { start := baseline_start, «end» := baseline_end } }

/-- Embeds the window construction of `analyze_from_service`
(pipeline.py:212-217): the only failing path of window construction,
raising `ValueError("end must be after start")` when `end <= start`. -/
def analyze_from_service_windows (startTs endTs : ℤ) : Except String Windows :=
  let inc : TimeWindow := { start := startTs, «end» := endTs }
  if inc.«end» ≤ inc.start then .error "end must be after start"
  else
    let duration_s := inc.«end» - inc.start
    let baseline : TimeWindow := { start := inc.start - duration_s, «end» := inc.start }
    .ok { incident := inc, baseline := baseline, anchor := inc.«end» }

/-! ### APM helpers (`dd_rca/analysis/apm.py`) -/
/-- Truncation toward zero, the behaviour of Python `int(float)`. -/
def ratTrunc (q : ℚ) : ℤ := q.num / (q.den : ℤ)

/-- Parse an optionally signed run of decimal digits (used by the models of
`int(str)` / `float(str)`); returns the value scaled as a pair
(digits value, digit count). -/
def digitsVal : List Char → Nat × Nat × List Char
  | [] => (0, 0, [])
  | c :: cs =>
      if isDigitCh c then
        let (v, n, rest) := digitsVal cs
        (v + (c.toNat - 48) * 10 ^ n, n + 1, rest)
      else (0, 0, c :: cs)

/-- Model of `float(s)` for a decimal literal with optional sign, fraction
and exponent, surrounded by optional whitespace.  Returns `Option.none`
where Python raises `ValueError` (which `_safe_float` turns into `None`).
`inf`/`nan` literals and digit-group underscores are not modelled; no
telemetry field in the claims carries them. -/
def parseFloat? (s : String) : Option ℚ :=
  let l := (s.data.dropWhile fun c => isWsChar c).reverse
  let l := (l.dropWhile fun c => isWsChar c).reverse
  let (sign, l) :=
    match l with
    | '-' :: rest => ((-1 : ℚ), rest)
    | '+' :: rest => ((1 : ℚ), rest)
    | rest => ((1 : ℚ), rest)
  let (ip, ni, l) := digitsVal l
  let (fp, nf, l) :=
    match l with
    | '.' :: rest =>
        let (v, n, r) := digitsVal rest
        (v, n, r)
    | rest => (0, 0, rest)
  if ni + nf = 0 then none
  else
    let mant : ℚ := (ip : ℚ) + (fp : ℚ) / (10 ^ nf : ℚ)
    match l with
    | [] => some (sign * mant)
    | e :: rest =>
        if e == 'e' || e == 'E' then
          let (esign, rest) :=
            match rest with
            | '-' :: r => ((-1 : ℤ), r)
            | '+' :: r => ((1 : ℤ), r)
            | r => ((1 : ℤ), r)
          let (ev, ne, rest) := digitsVal rest
          if ne = 0 ∨ rest ≠ [] then none
          else some (sign * mant * (10 : ℚ) ^ (esign * (ev : ℤ)))
        else none

/-- Model of `int(s)`: optional sign and digits, optional surrounding
whitespace. -/
def parseInt? (s : String) : Option ℤ :=
  let l := (s.data.dropWhile fun c => isWsChar c).reverse
  let l := (l.dropWhile fun c => isWsChar c).reverse
  let (sign, l) :=
    match l with
    | '-' :: rest => ((-1 : ℤ), rest)
    | '+' :: rest => ((1 : ℤ), rest)
    | rest => ((1 : ℤ), rest)
  let (v, n, rest) := digitsVal l
  if n = 0 ∨ rest ≠ [] then none else some (sign * (v : ℤ))

/-- Embeds apm.py `_safe_str` (apm.py:8-16): `None` stays `None`, strings
stay, everything else is `str(x)`. -/
def apm_safe_str : PyVal → Option String
  | .none => Option.none
  | .str s => some s
  | v => some (pyRepr v)

/-- Embeds `_safe_int` (apm.py:19-25): `int(x)` with exceptions mapped to
`None`. -/
def apm_safe_int : PyVal → Option ℤ
  | .none => Option.none
  | .int n => some n
  | .float q => some (ratTrunc q)
  | .bool b => some (if b then 1 else 0)
  | .str s => parseInt? s
  | .dict _ => Option.none

/-- Embeds `_safe_float` (apm.py:28-34): `float(x)` with exceptions mapped
to `None`. -/
def apm_safe_float : PyVal → Option ℚ
  | .none => Option.none
  | .int n => some (n : ℚ)
  | .float q => some q
  | .bool b => some (if b then 1 else 0)
  | .str s => parseFloat? s
  | .dict _ => Option.none

/-- Python `min` over a non-empty list (a left fold from the head). -/
def pymin (l : List ℚ) : ℚ :=
  match l with
  | [] => 0
  | x :: xs => xs.foldl min x

/-- Python `max` over a non-empty list (a left fold from the head). -/
def pymax (l : List ℚ) : ℚ :=
  match l with
  | [] => 0
  | x :: xs => xs.foldl max x

/-- Embeds `percentile` (apm.py:37-52).  `int(k)` is floor here because
`0 < p < 100` makes the rank `k` non-negative. -/
def percentile (values : List ℚ) (p : ℚ) : Option ℚ :=
  if values = [] then none
  else if p ≤ 0 then some (pymin values)
  else if 100 ≤ p then some (pymax values)
  else
    let xs := sortAscBy id values
    let k : ℚ := ((xs.length : ℚ) - 1) * (p / 100)
    let f : ℤ := ⌊k⌋
    let c : ℤ := ⌈k⌉
    if f = c then some (xs.getD f.toNat 0)
    else some (xs.getD f.toNat 0 * ((c : ℚ) - k) + xs.getD c.toNat 0 * (k - (f : ℚ)))

/-- Embeds the `SpanView` dataclass (apm.py:55-68). -/
structure SpanView where
  timestamp : Option String
  service : Option String
  resource : Option String
  name : Option String
  span_kind : Option String
  span_type : Option String
  duration_ms : Option ℚ
  error : Option Bool
  http_status : Option ℤ
  trace_id : Option String
  span_id : Option String
  peer_service : Option String
deriving DecidableEq

/-- Embeds `_get_attr` (apm.py:71-75): the first *present* key wins, even
when its value is `None`. -/
def get_attr (attrs : PyDict) : List String → PyVal
  | [] => .none
  | k :: ks => if (attrs.lookup k).isSome then dget attrs k else get_attr attrs ks

/-- Embeds `normalize_span` (apm.py:78-112). -/
def normalize_span (item : PyDict) : SpanView :=
  let attrs := asDictEntries (dget item "attributes")
  let raw_dur := get_attr attrs ["duration", "duration_ns", "durationNano"]
  let dur_f := apm_safe_float raw_dur
  let dur_ms : Option ℚ :=
    match dur_f with
    | some d => some (if 10000 < d then d / 1000000 else d)
    | Option.none => Option.none
  let raw_err := get_attr attrs ["error", "is_error"]
  let err : Option Bool :=
    match raw_err with
    | .bool b => some b
    | .int n => some (decide (n ≠ 0))
    | .float q => some (decide (ratTrunc q ≠ 0))
    | _ => Option.none
  { timestamp := apm_safe_str (get_attr attrs ["timestamp"]),
    service := apm_safe_str (get_attr attrs ["service"]),
    resource := apm_safe_str (get_attr attrs ["resource", "resource_name"]),
    name := apm_safe_str (get_attr attrs ["name"]),
    span_kind := apm_safe_str (get_attr attrs ["span.kind", "span_kind", "span.kind"]),
    span_type := apm_safe_str (get_attr attrs ["span.type", "span_type", "type"]),
    duration_ms := dur_ms,
    error := err,
    http_status := apm_safe_int (get_attr attrs ["http.status_code", "http.status_code", "http.status"]),
    trace_id := apm_safe_str (get_attr attrs ["trace_id", "trace.id"]),
    span_id := apm_safe_str (get_attr attrs ["span_id", "span.id"]),
    peer_service := apm_safe_str (get_attr attrs ["peer.service", "peer_service"]) }

/-! ### Scoring and candidate generation
(`dd_rca/analysis/scoring.py`, `dd_rca/pipeline.py:350-403`) -/
/-- Per-endpoint statistics dict produced by `group_endpoint_stats`
(apm.py:122-134), as consumed by the candidate generator. -/
structure EndpointStats where
  count : Nat
  error_count : Nat
  error_rate : Option ℚ
  p50_ms : Option ℚ
  p95_ms : Option ℚ
  p99_ms : Option ℚ
  sample_trace_ids : List String
deriving DecidableEq

/-- The empty dict `\x7b\x7d` used for a missing baseline group: every
`.get` on it yields `None`. -/
def emptyEndpointStats : EndpointStats :=
  { count := 0, error_count := 0, error_rate := Option.none, p50_ms := Option.none,
    p95_ms := Option.none, p99_ms := Option.none, sample_trace_ids := [] }

/-- Per-dependency statistics dict produced by `group_dependency_stats`
(apm.py:157-168). -/
structure DepStats where
  count : Nat
  error_count : Nat
  error_rate : Option ℚ
  total_duration_ms : Option ℚ
  p95_ms : Option ℚ
  sample_trace_ids : List String
deriving DecidableEq

/-- Missing baseline dependency group. -/
def emptyDepStats : DepStats :=
  { count := 0, error_count := 0, error_rate := Option.none,
    total_duration_ms := Option.none, p95_ms := Option.none, sample_trace_ids := [] }

/-- Evidence payload of a candidate (the `evidence` dict). -/
inductive Evidence where
  | logs (fingerprint template : String) (count_incident count_baseline : Nat)
      (first_seen : Option String) (sample : Option Sample)
  | endpoint (incident baseline : EndpointStats) (delta : ℚ)
  | dependency (incident baseline : DepStats) (duration_delta_ms error_rate_delta : ℚ)
deriving DecidableEq

/-- Embeds the `Candidate` dataclass (models.py). -/
structure Candidate where
  kind : String
  title : String
  score : ℚ
  evidence : Evidence
deriving DecidableEq

/-- Embeds `clamp01` (scoring.py:8-13). -/
def clamp01 (x : ℚ) : ℚ := if x < 0 then 0 else if 1 < x then 1 else x

/-- The score heuristic of `score_log_clusters` (scoring.py:21-28). -/
def log_cluster_score (c : LogCluster) : ℚ :=
  let inc := c.count_incident
  let base := c.count_baseline
  if base = 0 ∧ 0 < inc then (0.9 : ℚ) + min 0.1 ((inc : ℚ) / 200)
  else if 0 < base then min 0.9 (max 0 (((inc : ℚ) / (base : ℚ) - 1) / 5))
  else 0

/-- Embeds `score_log_clusters` (scoring.py:16-45). -/
def score_log_clusters (clusters : List LogCluster) (limit : Nat) : List Candidate :=
  sortDescBy (fun c => c.score)
    ((clusters.take limit).map fun c =>
      { kind := "logs",
        title := "Log signature spike: " ++ pytake 120 c.template,
        score := clamp01 (log_cluster_score c),
        evidence := .logs c.fingerprint c.template c.count_incident c.count_baseline
          c.first_seen c.sample })

/-- Model of `d.get(k) or 0.0` for an optional numeric stat: a missing or
falsy (`0.0`) value yields `0.0`, which coincides with `getD 0`. -/
def statOrZero (o : Option ℚ) : ℚ := o.getD 0

/-- Embeds the endpoint-candidate block of `_maybe_apm_attribution`
(pipeline.py:352-378): delta rows, sort by delta descending, top 5, keep
positive deltas. -/
def endpointCandidates (mode : String)
    (endpoints_inc endpoints_base : List (String × EndpointStats)) : List Candidate :=
  let rows := endpoints_inc.map fun kv =>
    let res := kv.1
    let inc := kv.2
    let base := (endpoints_base.lookup res).getD emptyEndpointStats
    let delta :=
      if mode = "errors" then statOrZero inc.error_rate - statOrZero base.error_rate
      else statOrZero inc.p95_ms - statOrZero base.p95_ms
    (delta, res, inc, base)
  let sorted := sortDescBy (fun r => r.1) rows
  (sorted.take 5).filterMap fun r =>
    let (delta, res, inc, base) := r
    if delta ≤ 0 then Option.none
    else some
      { kind := "endpoint",
        title := "Endpoint regression: " ++ res,
        score := min 0.95 (max 0 (delta / (if mode ≠ "errors" then 500 else 0.5))),
        evidence := .endpoint inc base delta }

/-- A dependency delta row `(dur_delta, err_delta, dep, inc, base)`
(pipeline.py:381-388). -/
structure DepRow where
  durD : ℚ
  errD : ℚ
  dep : String
  inc : DepStats
  base : DepStats
deriving DecidableEq

/-- Embeds the dependency-candidate block of `_maybe_apm_attribution`
(pipeline.py:380-401): delta rows, sort by `(dur_delta, err_delta)`
descending, top 7, skip rows with both deltas non-positive, score
`min(0.99, min(0.95, max(0.0, dur/2000 + err/0.5)))`. -/
def dependencyCandidates (deps_inc deps_base : List (String × DepStats)) : List Candidate :=
  let rows := deps_inc.map fun kv =>
    let dep := kv.1
    let inc := kv.2
    let base := (deps_base.lookup dep).getD emptyDepStats
    { durD := statOrZero inc.total_duration_ms - statOrZero base.total_duration_ms,
      errD := statOrZero inc.error_rate - statOrZero base.error_rate,
      dep := dep, inc := inc, base := base : DepRow }
  let sorted := sortDescBy (fun r => QQ.mk r.durD r.errD) rows
  (sorted.take 7).filterMap fun r =>
    if r.durD ≤ 0 ∧ r.errD ≤ 0 then Option.none
    else some
      { kind := "dependency",
        title := "Downstream suspect: " ++ r.dep,
        score := min 0.99 (min 0.95 (max 0 (r.durD / 2000 + r.errD / 0.5))),
        evidence := .dependency r.inc r.base r.durD r.errD }

/-! ## Claims -/
/-! ### C1 — structured error fields and the clustering template -/
/-- A log record carrying a flat `error.message` key and no nested `error`
map. -/
def recFlatError : PyDict :=
  [("attributes", .dict
    [("message", .str "raw boom 1"), ("error.message", .str "DbTimeout connecting to db 7")])]

/-! ### C2 — ranking of new vs recurring signatures -/
/-- C2 counterexample data: a brand-new signature... -/
def clusterNewSmall : LogCluster :=
  { fingerprint := "a", template := "a", count_incident := 5, count_baseline := 0,
    first_seen := Option.none, sample := Option.none }

/-- A recurring signature whose growth ratio (10000x) exceeds the 9999.0
sentinel used for new signatures (counterexample data for C2). -/
def clusterHugeRecurring : LogCluster :=
  { fingerprint := "b", template := "b", count_incident := 10000, count_baseline := 1,
    first_seen := Option.none, sample := Option.none }

/-- The particular instance from the claim: count `(5, 0)` vs `(100, 50)`. -/
def clusterW100 : LogCluster :=
  { fingerprint := "b", template := "b", count_incident := 100, count_baseline := 50,
    first_seen := Option.none, sample := Option.none }

/-! ### C5 — normalize_message pipeline and fingerprint determinism -/
/-- A log record whose message carries user id 123 and a UUID. -/
def recUser123 : PyDict :=
  [("attributes", .dict
    [("message", .str "User 123 failed id 550e8400-e29b-41d4-a716-446655440000")])]

/-- The same record shape with user id 999. -/
def recUser999 : PyDict :=
  [("attributes", .dict
    [("message", .str "User 999 failed id 550e8400-e29b-41d4-a716-446655440000")])]

/-- A span record with raw duration `50_000_000` (nanoseconds). -/
def spanRawNs : PyDict := [("attributes", .dict [("duration", .int 50000000)])]

/-- A span record with raw duration `50` (already milliseconds). -/
def spanRawMs : PyDict := [("attributes", .dict [("duration", .int 50)])]

/-! ### C3 — dependency suspect candidates -/
/-- Python-style `clamp(x, lo, hi)` as the claim words it. -/
def clampQ (lo hi x : ℚ) : ℚ := min hi (max lo x)

/-- The dependency pipeline exactly as claim C3 words it (for comparison
with the embedded `dependencyCandidates`): keep only rows with a positive
delta, order by `(dur_delta, err_delta)` descending, keep the top 7, score
`clamp(dur/2000 + err/0.5, 0, 0.99)`. -/
def dependencyCandidatesClaim (deps_inc deps_base : List (String × DepStats)) :
    List Candidate :=
  let rows := deps_inc.map fun kv =>
    let dep := kv.1
    let inc := kv.2
    let base := (deps_base.lookup dep).getD emptyDepStats
    { durD := statOrZero inc.total_duration_ms - statOrZero base.total_duration_ms,
      errD := statOrZero inc.error_rate - statOrZero base.error_rate,
      dep := dep, inc := inc, base := base : DepRow }
  let kept := rows.filter fun r => decide (0 < r.durD) || decide (0 < r.errD)
  let sorted := sortDescBy (fun r => QQ.mk r.durD r.errD) kept
  (sorted.take 7).map fun r =>
    { kind := "dependency",
      title := "Downstream suspect: " ++ r.dep,
      score := clampQ 0 (0.99 : ℚ) (r.durD / 2000 + r.errD / 0.5),
      evidence := .dependency r.inc r.base r.durD r.errD }

/-- The dependency pipeline as amended to match the code: sort all rows,
take the top 7, then drop rows with no positive delta, scoring
`clamp(dur/2000 + err/0.5, 0, 0.95)` (the source's extra `min(0.99, ·)`
is a no-op after the 0.95 cap). -/
def dependencyCandidatesAmended (deps_inc deps_base : List (String × DepStats)) :
    List Candidate :=
  let rows := deps_inc.map fun kv =>
    let dep := kv.1
    let inc := kv.2
    let base := (deps_base.lookup dep).getD emptyDepStats
    { durD := statOrZero inc.total_duration_ms - statOrZero base.total_duration_ms,
      errD := statOrZero inc.error_rate - statOrZero base.error_rate,
      dep := dep, inc := inc, base := base : DepRow }
  let sorted := sortDescBy (fun r => QQ.mk r.durD r.errD) rows
  ((sorted.take 7).filter fun r => decide (0 < r.durD) || decide (0 < r.errD)).map fun r =>
    { kind := "dependency",
      title := "Downstream suspect: " ++ r.dep,
      score := clampQ 0 (0.95 : ℚ) (r.durD / 2000 + r.errD / 0.5),
      evidence := .dependency r.inc r.base r.durD r.errD }

/-- A dependency whose incident window added 2000 ms of total duration. -/
def depHot : DepStats :=
  { count := 1, error_count := 0, error_rate := some 0, total_duration_ms := some 2000,
    p95_ms := Option.none, sample_trace_ids := [] }

/-- Dependency stats with given total duration and error rate. -/
def mkDepStats (dur er : ℚ) : DepStats :=
  { count := 1, error_count := 0, error_rate := some er, total_duration_ms := some dur,
    p95_ms := Option.none, sample_trace_ids := [] }

/-- Eight dependencies: six with positive duration deltas, one inert
`(0, 0)` row, and one with a negative duration delta but positive
error-rate delta. -/
def depsEight : List (String × DepStats) :=
  [("a", mkDepStats 6 0), ("b", mkDepStats 5 0), ("c", mkDepStats 4 0),
   ("d", mkDepStats 3 0), ("e", mkDepStats 2 0), ("f", mkDepStats 1 0),
   ("n", mkDepStats 0 0), ("p", mkDepStats (-1) (1/2))]

/-- The two incident records and one baseline record of the claim's
example (identical normalized templates). -/
def recInc1 : PyDict :=
  [("attributes", .dict
    [("message", .str "error code 500 user 1"), ("timestamp", .str "2025-01-01T00:00:00Z")])]

def recInc2 : PyDict :=
  [("attributes", .dict
    [("message", .str "error code 500 user 2"), ("timestamp", .str "2025-01-01T00:01:00Z")])]

def recBase9 : PyDict :=
  [("attributes", .dict
    [("message", .str "error code 500 user 9"), ("timestamp", .str "2024-12-31T23:00:00Z")])]

/-- Concrete candidates for the witness: one of each kind. -/
def witnessLogCluster : LogCluster :=
  { fingerprint := "a", template := "t", count_incident := 5, count_baseline := 0,
    first_seen := Option.none, sample := Option.none }

def witnessLogCand : Candidate :=
  { kind := "logs", title := "Log signature spike: t", score := 37 / 40,
    evidence := .logs "a" "t" 5 0 Option.none Option.none }

def witnessEndpointStats : EndpointStats :=
  { count := 1, error_count := 0, error_rate := some 0, p50_ms := Option.none,
    p95_ms := some 600, p99_ms := Option.none, sample_trace_ids := [] }

def witnessEndpointCand : Candidate :=
  { kind := "endpoint", title := "Endpoint regression: GET /x", score := 19 / 20,
    evidence := .endpoint witnessEndpointStats emptyEndpointStats 600 }

def witnessDepCand : Candidate :=
  { kind := "dependency", title := "Downstream suspect: db", score := 19 / 20,
    evidence := .dependency depHot emptyDepStats 2000 0 }

/-! ## Lemmas and claim theorems -/

theorem QQ.lt_def (p q : QQ) :
    p < q ↔ p.fst < q.fst ∨ (p.fst = q.fst ∧ p.snd < q.snd) := Iff.rfl

theorem QQ.le_def (p q : QQ) :
    p ≤ q ↔ p.fst < q.fst ∨ (p.fst = q.fst ∧ p.snd ≤ q.snd) := Iff.rfl

theorem insertDescBy_perm {α κ : Type} [LinearOrder κ] (key : α → κ) (x : α) :
    ∀ l : List α, List.Perm (insertDescBy key x l) (x :: l) := by
  intro l
  induction l with
  | nil => simp [insertDescBy]
  | cons y l ih =>
      by_cases h : key x < key y
      · simp only [insertDescBy, if_pos h]
        exact ((ih.cons y).trans (List.Perm.swap x y l))
      · simp [insertDescBy, if_neg h]

theorem sortDescBy_perm {α κ : Type} [LinearOrder κ] (key : α → κ) :
    ∀ l : List α, List.Perm (sortDescBy key l) l := by
  intro l
  induction l with
  | nil => simp [sortDescBy]
  | cons x l ih => exact (insertDescBy_perm key x (sortDescBy key l)).trans (ih.cons x)

theorem mem_sortDescBy {α κ : Type} [LinearOrder κ] {key : α → κ} {l : List α} {a : α} :
    a ∈ sortDescBy key l ↔ a ∈ l :=
  (sortDescBy_perm key l).mem_iff

theorem insertDescBy_pairwise {α κ : Type} [LinearOrder κ] {key : α → κ} {x : α}
    {l : List α} (h : l.Pairwise fun a b => key b ≤ key a) :
    (insertDescBy key x l).Pairwise fun a b => key b ≤ key a := by
  induction l with
  | nil => simp [insertDescBy]
  | cons y l ih =>
      rcases h with _ | ⟨hy, hl⟩
      by_cases hlt : key x < key y
      · simp only [insertDescBy, if_pos hlt]
        refine List.Pairwise.cons ?_ (ih hl)
        intro z hz
        rcases List.mem_cons.mp ((insertDescBy_perm key x l).mem_iff.mp hz) with hzx | hzl
        · exact hzx ▸ le_of_lt hlt
        · exact hy z hzl
      · simp only [insertDescBy, if_neg hlt]
        refine List.Pairwise.cons ?_ (List.Pairwise.cons hy hl)
        intro z hz
        rcases List.mem_cons.mp hz with hzy | hzl
        · exact hzy ▸ le_of_not_lt hlt
        · exact le_trans (hy z hzl) (le_of_not_lt hlt)

theorem sortDescBy_pairwise {α κ : Type} [LinearOrder κ] (key : α → κ) :
    ∀ l : List α, (sortDescBy key l).Pairwise fun a b => key b ≤ key a := by
  intro l
  induction l with
  | nil => simp [sortDescBy]
  | cons x l ih => exact insertDescBy_pairwise ih

/-- C1: the claim says a record with a flat `error.message` key (and no
nested `error` map) clusters by that error message.  The code does not:
in logs.py:62-64 the conditional expression binds looser than `or`, so the
whole right-hand side is `None` whenever `attrs.get("error")` is not a
dict, silently discarding flat `error.*` keys.  At `recFlatError` the
produced template is `"msg=raw boom <num>"`, built from the raw message,
while the claimed behaviour would give `"msg=DbTimeout connecting to db
<num>"` — contradicting the code's own comment (logs.py:58-61), which
lists the flat shape as supported. -/
theorem C1_flat_error_message_ignored :
    (cluster_logs [recFlatError]).map (fun kv => kv.2.template) = ["msg=raw boom <num>"] ∧
    "msg=" ++ normalize_message "DbTimeout connecting to db 7" =
      "msg=DbTimeout connecting to db <num>" ∧
    ("msg=raw boom <num>" : String) ≠ "msg=DbTimeout connecting to db <num>" := by
  refine ⟨by decide, by decide, by decide⟩

/-- C2 counterexample: the claim promises that a new signature
(`count_baseline = 0`, `count_incident > 0`) is ordered before every
recurring signature *regardless of the counts' magnitudes*.  With a
recurring cluster at `count_incident = 10000, count_baseline = 1` the
recurring ratio `10000 > 9999` beats the new-signature sentinel and the
recurring cluster is ranked first. -/
theorem C2_counterexample :
    clusterNewSmall.count_baseline = 0 ∧ 0 < clusterNewSmall.count_incident ∧
    0 < clusterHugeRecurring.count_baseline ∧
    (rank_clusters [("a", clusterNewSmall), ("b", clusterHugeRecurring)] 10).map
        (fun c => c.fingerprint) = ["b", "a"] := by
  refine ⟨by decide, by decide, by decide, ?_⟩
  norm_num [rank_clusters, sortDescBy, insertDescBy, cluster_score, clusterNewSmall,
    clusterHugeRecurring, QQ.lt_def]

/-- C2 (amended): a new signature `a` (`count_baseline = 0 < count_incident`)
is never ranked after a recurring signature `b` (`count_baseline > 0`)
*provided* `b.count_incident < 9999 * b.count_baseline` (i.e. `b`'s growth
ratio stays below the 9999.0 sentinel); in the ranked list any occurrence
of `b` comes strictly after any occurrence of `a`.  The sort key is
`(ratio, count_incident)` descending as the claim states; the particular
instance `(5, 0)` above `(100, 50)` is the witness. -/
theorem C2_new_signature_priority (clusters : ClusterMap) (limit : Nat)
    (a b : LogCluster)
    (ha0 : a.count_baseline = 0) (ha1 : 0 < a.count_incident)
    (hb0 : 0 < b.count_baseline)
    (hr : (b.count_incident : ℚ) < 9999 * (b.count_baseline : ℚ))
    (i j : Nat) (hi : i < (rank_clusters clusters limit).length)
    (hj : j < (rank_clusters clusters limit).length)
    (hbi : (rank_clusters clusters limit).get ⟨i, hi⟩ = b)
    (haj : (rank_clusters clusters limit).get ⟨j, hj⟩ = a) :
    j ≤ i := by
  by_contra hij
  push_neg at hij
  have hpw : (rank_clusters clusters limit).Pairwise
      (fun x y => cluster_score y ≤ cluster_score x) := by
    refine List.Pairwise.sublist (List.take_sublist _ _) ?_
    exact sortDescBy_pairwise _ _
  have hle := List.pairwise_iff_get.mp hpw ⟨i, hi⟩ ⟨j, hj⟩ hij
  rw [hbi, haj] at hle
  have hsa : cluster_score a = QQ.mk (9999 : ℚ) (a.count_incident : ℚ) := by
    unfold cluster_score
    rw [if_pos ⟨ha0, ha1⟩]
  have hsb : cluster_score b =
      QQ.mk ((b.count_incident : ℚ) / (b.count_baseline : ℚ)) (b.count_incident : ℚ) := by
    unfold cluster_score
    rw [if_neg, if_pos hb0]
    rintro ⟨h0, -⟩
    omega
  have hblt : cluster_score b < cluster_score a := by
    rw [hsa, hsb, QQ.lt_def]
    left
    show (b.count_incident : ℚ) / (b.count_baseline : ℚ) < 9999
    rw [div_lt_iff₀ (by exact_mod_cast hb0)]
    exact hr
  exact absurd (lt_of_lt_of_le hblt hle) (lt_irrefl _)

/-- C2 witness: concrete application at `(5,0)` vs `(100,50)` — the ranked
list is `[a, b]`, so the recurring cluster's position (1) is not before the
new cluster's (0). -/
theorem C2_witness :
    (rank_clusters [("a", clusterNewSmall), ("b", clusterW100)] 10).map
        (fun c => c.fingerprint) = ["a", "b"] ∧ (0 : Nat) ≤ 1 := by
  have h : rank_clusters [("a", clusterNewSmall), ("b", clusterW100)] 10 =
      [clusterNewSmall, clusterW100] := by
    norm_num [rank_clusters, sortDescBy, insertDescBy, cluster_score, clusterNewSmall,
      clusterW100, QQ.lt_def]
  refine ⟨by rw [h]; rfl, ?_⟩
  exact C2_new_signature_priority [("a", clusterNewSmall), ("b", clusterW100)] 10
    clusterNewSmall clusterW100 rfl (by norm_num [clusterNewSmall])
    (by norm_num [clusterW100]) (by norm_num [clusterW100])
    1 0 (by rw [h]; norm_num) (by rw [h]; norm_num)
    (by simp [h]) (by simp [h])

/-! ### C4 — window construction failure modes -/
/-- C4 counterexample: `windows_ending_at` performs no validation at all:
with `window_minutes = 0` it happily returns a zero-duration incident
window instead of rejecting the input (and the codebase defines no
`InvalidWindowError` anywhere; the one failing path raises a plain
`ValueError`). -/
theorem C4_counterexample :
    windows_ending_at 1000 0 Option.none =
      { anchor := 1000, incident := { start := 1000, «end» := 1000 },
        baseline := { start := 1000, «end» := 1000 } } ∧
    ¬ (windows_ending_at 1000 0 Option.none).incident.start <
        (windows_ending_at 1000 0 Option.none).incident.«end» := by
  refine ⟨by decide, by decide⟩

/-- C4 (amended): window construction fails only in the explicit
caller-supplied start/end path of `analyze_from_service`, where it raises
a plain `ValueError("end must be after start")` exactly when `end <=
start`; `windows_ending_at` never validates and returns a (possibly
non-positive) window for every anchor/duration input. -/
theorem C4_window_failure_modes :
    (∀ s e : ℤ, analyze_from_service_windows s e =
      if e ≤ s then .error "end must be after start"
      else .ok { incident := { start := s, «end» := e },
                 baseline := { start := s - (e - s), «end» := s }, anchor := e }) ∧
    (∀ (anchor wm : ℤ) (bm : Option ℤ), windows_ending_at anchor wm bm =
      { anchor := anchor,
        incident := { start := anchor - 60 * wm, «end» := anchor },
        baseline := { start := anchor - 60 * wm - 60 * (bm.getD wm),
                      «end» := anchor - 60 * wm } }) := by
  constructor
  · intro s e
    by_cases h : e ≤ s <;> simp [analyze_from_service_windows, h]
  · intro anchor wm bm
    rfl

/-- C5: `normalize_message` is exactly the pipeline strip → UUID → 0x-hex →
IP → digit runs → whitespace collapse → truncate-to-500, in that order;
consequently the two example messages normalize identically, their
fingerprints agree, and clustering each record yields the same cluster
fingerprint. -/
theorem C5_normalize_and_fingerprint :
    (∀ s : String, normalize_message s =
      pytake 500 (collapseWs (subNum (subIp (subHex (subUuid (pystrip s))))))) ∧
    normalize_message "User 123 failed id 550e8400-e29b-41d4-a716-446655440000" =
      normalize_message "User 999 failed id 550e8400-e29b-41d4-a716-446655440000" ∧
    fingerprint (normalize_message "User 123 failed id 550e8400-e29b-41d4-a716-446655440000") =
      fingerprint (normalize_message "User 999 failed id 550e8400-e29b-41d4-a716-446655440000") ∧
    (cluster_logs [recUser123]).map Prod.fst = (cluster_logs [recUser999]).map Prod.fst := by
  refine ⟨fun s => rfl, by decide, by decide, by decide⟩

/-! ### C6 — percentile -/
theorem foldl_min_mem (x : ℚ) (xs : List ℚ) : xs.foldl min x ∈ x :: xs := by
  induction xs generalizing x with
  | nil => simp
  | cons y ys ih =>
      simp only [List.foldl_cons]
      rcases List.mem_cons.mp (ih (min x y)) with h | h
      · rw [h]
        rcases min_choice x y with hm | hm <;> rw [hm] <;> simp
      · simp [h]

theorem foldl_min_le (x : ℚ) (xs : List ℚ) : ∀ y ∈ x :: xs, xs.foldl min x ≤ y := by
  induction xs generalizing x with
  | nil => simp
  | cons z zs ih =>
      intro y hy
      have hstep : zs.foldl min (min x z) ≤ min x z :=
        ih (min x z) (min x z) (List.mem_cons_self _ _)
      rcases List.mem_cons.mp hy with h | h
      · subst h
        exact le_trans hstep (min_le_left _ _)
      · rcases List.mem_cons.mp h with h2 | h2
        · subst h2
          exact le_trans hstep (min_le_right _ _)
        · exact ih (min x z) y (List.mem_cons_of_mem _ h2)

theorem foldl_max_mem (x : ℚ) (xs : List ℚ) : xs.foldl max x ∈ x :: xs := by
  induction xs generalizing x with
  | nil => simp
  | cons y ys ih =>
      simp only [List.foldl_cons]
      rcases List.mem_cons.mp (ih (max x y)) with h | h
      · rw [h]
        rcases max_choice x y with hm | hm <;> rw [hm] <;> simp
      · simp [h]

theorem foldl_le_max (x : ℚ) (xs : List ℚ) : ∀ y ∈ x :: xs, y ≤ xs.foldl max x := by
  induction xs generalizing x with
  | nil => simp
  | cons z zs ih =>
      intro y hy
      have hstep : max x z ≤ zs.foldl max (max x z) :=
        ih (max x z) (max x z) (List.mem_cons_self _ _)
      rcases List.mem_cons.mp hy with h | h
      · subst h
        exact le_trans (le_max_left _ _) hstep
      · rcases List.mem_cons.mp h with h2 | h2
        · subst h2
          exact le_trans (le_max_right _ _) hstep
        · exact ih (max x z) y (List.mem_cons_of_mem _ h2)

/-- C6: on a non-empty list, `percentile` returns the minimum for `p ≤ 0`,
the maximum for `p ≥ 100`, and otherwise the linear interpolation between
the two bracketing order statistics of the ascending-sorted values at
fractional rank `k = (n-1)·p/100`; in particular
`percentile [1,2,3,4,5] 50 = 3` exactly. -/
theorem C6_percentile (values : List ℚ) (p : ℚ) (hne : values ≠ []) :
    (p ≤ 0 → ∃ m, percentile values p = some m ∧ m ∈ values ∧ ∀ y ∈ values, m ≤ y) ∧
    (100 ≤ p → ∃ m, percentile values p = some m ∧ m ∈ values ∧ ∀ y ∈ values, y ≤ m) ∧
    (0 < p → p < 100 → percentile values p =
      some (
        let xs := sortAscBy id values
        let k : ℚ := ((xs.length : ℚ) - 1) * (p / 100)
        xs.getD ⌊k⌋.toNat 0 +
          (xs.getD ⌈k⌉.toNat 0 - xs.getD ⌊k⌋.toNat 0) * (k - (⌊k⌋ : ℚ)))) ∧
    percentile [1, 2, 3, 4, 5] 50 = some 3 := by
  obtain ⟨x, xs, rfl⟩ : ∃ x xs, values = x :: xs := by
    cases values with
    | nil => exact absurd rfl hne
    | cons x xs => exact ⟨x, xs, rfl⟩
  refine ⟨?_, ?_, ?_, ?_⟩
  · intro hp
    refine ⟨pymin (x :: xs), ?_, ?_, ?_⟩
    · unfold percentile
      rw [if_neg (by simp), if_pos hp]
    · exact foldl_min_mem x xs
    · exact foldl_min_le x xs
  · intro hp
    refine ⟨pymax (x :: xs), ?_, ?_, ?_⟩
    · unfold percentile
      rw [if_neg (by simp), if_neg (by linarith), if_pos hp]
    · exact foldl_max_mem x xs
    · exact foldl_le_max x xs
  · intro hp0 hp100
    unfold percentile
    rw [if_neg (by simp), if_neg (by linarith), if_neg (by linarith)]
    set xs0 := sortAscBy id (x :: xs) with hxs0
    set k : ℚ := ((xs0.length : ℚ) - 1) * (p / 100) with hk
    by_cases hfc : (⌊k⌋ : ℤ) = ⌈k⌉
    · rw [if_pos hfc]
      simp only [← hfc]
      congr 1
      ring
    · rw [if_neg hfc]
      have h1 : (⌈k⌉ : ℤ) ≤ ⌊k⌋ + 1 := Int.ceil_le_floor_add_one k
      have h2 : (⌊k⌋ : ℤ) ≤ ⌈k⌉ := Int.floor_le_ceil k
      have hceil : (⌈k⌉ : ℤ) = ⌊k⌋ + 1 := by omega
      have hcast : ((⌈k⌉ : ℤ) : ℚ) = ((⌊k⌋ : ℤ) : ℚ) + 1 := by
        rw [hceil]
        push_cast
        ring
      set A := xs0.getD ⌊k⌋.toNat 0 with hA
      set B := xs0.getD ⌈k⌉.toNat 0 with hB
      congr 1
      rw [hcast]
      ring
  · norm_num [percentile, sortAscBy, insertAscBy, pymin, pymax]
    exact ⟨by simp, rfl⟩

/-- C6 witness: the theorem applied at `[1,2,3,4,5]`, `p = 50`. -/
theorem C6_witness : percentile [1, 2, 3, 4, 5] 50 = some 3 :=
  (C6_percentile [1, 2, 3, 4, 5] 50 (by simp)).2.2.2

/-! ### C7 — span duration unit inference -/
/-- C7: whenever the raw duration field (first present among `duration`,
`duration_ns`, `durationNano`) parses to a number `d`, the normalized span
has `duration_ms = d / 1,000,000` if `d > 10,000` (assumed nanoseconds) and
`duration_ms = d` otherwise (assumed milliseconds). -/
theorem C7_duration_unit_inference (item : PyDict) (d : ℚ)
    (h : apm_safe_float (get_attr (asDictEntries (dget item "attributes"))
          ["duration", "duration_ns", "durationNano"]) = some d) :
    (normalize_span item).duration_ms = some (if 10000 < d then d / 1000000 else d) := by
  simp only [normalize_span]
  rw [h]

/-- C7 witness: `50_000_000` normalizes to `50.0` and `50` stays `50`. -/
theorem C7_witness :
    (normalize_span spanRawNs).duration_ms = some 50 ∧
    (normalize_span spanRawMs).duration_ms = some 50 := by
  constructor
  · rw [C7_duration_unit_inference spanRawNs 50000000 (by norm_num [spanRawNs, get_attr,
      asDictEntries, dget, apm_safe_float, List.lookup])]
    norm_num
  · rw [C7_duration_unit_inference spanRawMs 50 (by norm_num [spanRawMs, get_attr,
      asDictEntries, dget, apm_safe_float, List.lookup])]
    norm_num

/-! ### C9 — windows invariant -/
/-- C9: for every anchor and positive window/baseline durations,
`windows_ending_at` yields `incident = [anchor - window, anchor]`,
`baseline = [incident.start - baseline, incident.start]`, and in
particular `baseline.end = incident.start` (no gap, no overlap). -/
theorem C9_windows_invariant (anchor wm bm : ℤ) (hw : 0 < wm) (hb : 0 < bm) :
    (windows_ending_at anchor wm (some bm)).incident.start = anchor - 60 * wm ∧
    (windows_ending_at anchor wm (some bm)).incident.«end» = anchor ∧
    (windows_ending_at anchor wm (some bm)).baseline.start =
      (windows_ending_at anchor wm (some bm)).incident.start - 60 * bm ∧
    (windows_ending_at anchor wm (some bm)).baseline.«end» =
      (windows_ending_at anchor wm (some bm)).incident.start := by
  refine ⟨rfl, rfl, rfl, rfl⟩

/-- C9 witness: the invariant at anchor 1700000000 with 10-minute windows
(`baseline.end = incident.start = 1700000000 - 600`). -/
theorem C9_witness :
    (windows_ending_at 1700000000 10 (some 10)).incident.start = 1700000000 - 60 * 10 ∧
    (windows_ending_at 1700000000 10 (some 10)).incident.«end» = 1700000000 ∧
    (windows_ending_at 1700000000 10 (some 10)).baseline.start =
      (windows_ending_at 1700000000 10 (some 10)).incident.start - 60 * 10 ∧
    (windows_ending_at 1700000000 10 (some 10)).baseline.«end» =
      (windows_ending_at 1700000000 10 (some 10)).incident.start :=
  C9_windows_invariant 1700000000 10 10 (by decide) (by decide)

/-- C3 counterexample: the claim's pipeline differs from the code twice.
(1) Score cap: for a single dependency with duration delta 2000 the code
produces score `0.95` (the `min(0.95, ·)` saturates before the claimed
`min(0.99, ·)`), while the claim's `clamp(…, 0, 0.99)` gives `0.99`.
(2) Filter/truncation order: the code takes the top 7 rows *before*
dropping non-positive rows, so with `depsEight` the positive-error-delta
dependency `p` is crowded out by the inert `(0,0)` row and only 6
candidates emerge, while the claim's filter-first pipeline keeps `p` and
emits 7. -/
theorem C3_counterexample :
    (dependencyCandidates [("db", depHot)] []).map Candidate.score = [19 / 20] ∧
    (dependencyCandidatesClaim [("db", depHot)] []).map Candidate.score = [99 / 100] ∧
    ((19 : ℚ) / 20) ≠ 99 / 100 ∧
    (dependencyCandidates depsEight []).length = 6 ∧
    (dependencyCandidatesClaim depsEight []).length = 7 := by
  refine ⟨?_, ?_, by norm_num, ?_, ?_⟩ <;>
    norm_num [dependencyCandidates, dependencyCandidatesClaim, depHot, depsEight, mkDepStats,
      statOrZero, emptyDepStats, clampQ, sortDescBy, insertDescBy, QQ.lt_def,
      List.filterMap_cons, min_def, max_def]

/-- Rewrites a filterMap whose function is an if-none-else-some into a
filter followed by a map. -/
theorem filterMap_ite_eq_filter_map {α β : Type} (q : α → Prop) [DecidablePred q]
    (g : α → β) (l : List α) :
    (l.filterMap fun a => if q a then none else some (g a)) =
      (l.filter fun a => decide ¬ q a).map g := by
  induction l with
  | nil => rfl
  | cons a l ih => by_cases h : q a <;> simp [h, ih]

/-- C3 (amended): the dependency-suspect generation equals the pipeline
"order all rows by `(duration_delta, error_rate_delta)` descending, keep
the top 7, then keep only rows with a positive delta, score
`clamp(duration_delta/2000 + error_rate_delta/0.5, 0, 0.95)`" — the
positivity filter runs *after* the top-7 truncation and the effective
score cap is 0.95, not 0.99. -/
theorem C3_dependency_pipeline (deps_inc deps_base : List (String × DepStats)) :
    dependencyCandidates deps_inc deps_base =
      dependencyCandidatesAmended deps_inc deps_base := by
  unfold dependencyCandidates dependencyCandidatesAmended
  rw [filterMap_ite_eq_filter_map (fun r : DepRow => r.durD ≤ 0 ∧ r.errD ≤ 0)]
  rw [List.filter_congr (fun r _ => ?_)]
  · apply List.map_congr_left
    intro r _
    have hcap : min (0.99 : ℚ) (min 0.95 (max 0 (r.durD / 2000 + r.errD / 0.5))) =
        min 0.95 (max 0 (r.durD / 2000 + r.errD / 0.5)) :=
      min_eq_right (le_trans (min_le_left _ _) (by norm_num))
    simp only [clampQ, hcap]
  · show decide (¬ (r.durD ≤ 0 ∧ r.errD ≤ 0)) =
      (decide (0 < r.durD) || decide (0 < r.errD))
    simp only [not_and_or, not_le]
    by_cases hp : 0 < r.durD <;> by_cases hq : 0 < r.errD <;> simp [hp, hq]

/-! ### C8 — merging baseline counts -/
theorem keys_updateAllF (m : ClusterMap) (fp : String) (f : LogCluster → LogCluster) :
    (updateAllF m fp f).map Prod.fst = m.map Prod.fst := by
  unfold updateAllF
  rw [List.map_map]
  apply List.map_congr_left
  intro kv _
  by_cases h : kv.1 = fp <;> simp [h]

theorem lookup_cons_self {α : Type} {k : String} {v : α} {l : List (String × α)} :
    List.lookup k ((k, v) :: l) = some v := by
  simp [List.lookup]

theorem lookup_cons_ne {α : Type} {k k1 : String} {v : α} {l : List (String × α)}
    (h : k ≠ k1) : List.lookup k ((k1, v) :: l) = List.lookup k l := by
  have hb : (k == k1) = false := beq_eq_false_iff_ne.mpr h
  simp [List.lookup, hb]

theorem updateAllF_cons (k1 : String) (v1 : LogCluster) (m : ClusterMap) (fp : String)
    (f : LogCluster → LogCluster) :
    updateAllF ((k1, v1) :: m) fp f =
      (if k1 = fp then (k1, f v1) else (k1, v1)) :: updateAllF m fp f := rfl

theorem lookup_updateAllF_self (m : ClusterMap) (fp : String) (f : LogCluster → LogCluster) :
    (updateAllF m fp f).lookup fp = (m.lookup fp).map f := by
  induction m with
  | nil => rfl
  | cons kv m ih =>
      obtain ⟨k1, v1⟩ := kv
      rw [updateAllF_cons]
      by_cases h : k1 = fp
      · subst h
        rw [if_pos rfl, lookup_cons_self, lookup_cons_self]
        rfl
      · have hs : fp ≠ k1 := fun e => h e.symm
        rw [if_neg h, lookup_cons_ne hs, lookup_cons_ne hs, ih]

theorem lookup_updateAllF_ne (m : ClusterMap) (fp k : String) (f : LogCluster → LogCluster)
    (h : k ≠ fp) : (updateAllF m fp f).lookup k = m.lookup k := by
  induction m with
  | nil => rfl
  | cons kv m ih =>
      obtain ⟨k1, v1⟩ := kv
      rw [updateAllF_cons]
      by_cases hkv : k1 = fp
      · subst hkv
        have hk1 : k ≠ k1 := h
        rw [if_pos rfl, lookup_cons_ne hk1, lookup_cons_ne hk1, ih]
      · by_cases hk : k = k1
        · subst hk
          rw [if_neg hkv, lookup_cons_self, lookup_cons_self]
        · rw [if_neg hkv, lookup_cons_ne hk, lookup_cons_ne hk, ih]

theorem lookup_eq_none_iff (m : ClusterMap) (k : String) :
    m.lookup k = Option.none ↔ k ∉ m.map Prod.fst := by
  induction m with
  | nil => simp [List.lookup]
  | cons kv m ih =>
      obtain ⟨k1, v1⟩ := kv
      by_cases h : k = k1
      · subst h
        rw [lookup_cons_self]
        simp
      · rw [lookup_cons_ne h]
        simp [h, ih]

theorem keys_merge_step (m : ClusterMap) (kv : String × LogCluster) :
    (merge_step m kv).map Prod.fst = m.map Prod.fst := by
  unfold merge_step
  split
  · exact keys_updateAllF _ _ _
  · rfl

theorem lookup_merge_step_ne (m : ClusterMap) (kv : String × LogCluster) (fp : String)
    (h : fp ≠ kv.1) : (merge_step m kv).lookup fp = m.lookup fp := by
  unfold merge_step
  split
  · exact lookup_updateAllF_ne _ _ _ _ h
  · rfl

theorem lookup_merge_step_self (m : ClusterMap) (fp : String) (b : LogCluster) :
    (merge_step m (fp, b)).lookup fp =
      (m.lookup fp).map fun c => { c with count_baseline := b.count_incident } := by
  unfold merge_step
  cases hm : m.lookup fp with
  | none => simp [hm]
  | some c => simp [hm, lookup_updateAllF_self]

theorem lookup_foldl_merge_step_notmem (entries : List (String × LogCluster)) (fp : String)
    (h : fp ∉ entries.map Prod.fst) :
    ∀ m : ClusterMap, (entries.foldl merge_step m).lookup fp = m.lookup fp := by
  induction entries with
  | nil => intro m; rfl
  | cons kv rest ih =>
      intro m
      simp only [List.map_cons, List.mem_cons] at h
      push_neg at h
      rw [List.foldl_cons, ih h.2, lookup_merge_step_ne _ _ _ h.1]

theorem lookup_foldl_merge_step (entries : List (String × LogCluster)) (fp : String)
    (hnd : (entries.map Prod.fst).Nodup) :
    ∀ m : ClusterMap, (entries.foldl merge_step m).lookup fp =
      match m.lookup fp, entries.lookup fp with
      | some c, some b => some { c with count_baseline := b.count_incident }
      | some c, Option.none => some c
      | Option.none, _ => Option.none := by
  induction entries with
  | nil =>
      intro m
      cases hm : m.lookup fp <;> simp [List.lookup, hm]
  | cons kv rest ih =>
      intro m
      obtain ⟨k, b⟩ := kv
      simp only [List.map_cons, List.nodup_cons] at hnd
      by_cases hfp : k = fp
      · subst hfp
        rw [List.foldl_cons,
          lookup_foldl_merge_step_notmem rest k hnd.1 (merge_step m (k, b)),
          lookup_merge_step_self, lookup_cons_self]
        cases hm : m.lookup k <;> simp [hm]
      · have hs : fp ≠ k := fun e => hfp e.symm
        rw [List.foldl_cons, ih hnd.2 (merge_step m (k, b)),
          lookup_merge_step_ne _ _ _ hs, lookup_cons_ne hs]

theorem keys_foldl_merge_step (entries : List (String × LogCluster)) :
    ∀ m : ClusterMap, (entries.foldl merge_step m).map Prod.fst = m.map Prod.fst := by
  induction entries with
  | nil => intro m; rfl
  | cons kv rest ih =>
      intro m
      rw [List.foldl_cons, ih, keys_merge_step]

/-- The shape of one clustering step: some fingerprint is inserted (if
absent) and then updated. -/
theorem cluster_step_shape (m : ClusterMap) (item : PyDict) :
    cluster_step m item =
      updateAllF
        (if (m.lookup (record_new_cluster item).fingerprint).isSome then m
         else m ++ [((record_new_cluster item).fingerprint, record_new_cluster item)])
        (record_new_cluster item).fingerprint
        (cluster_update (log_timestamp_iso item)) := rfl

theorem nodup_keys_cluster_step (m : ClusterMap) (item : PyDict)
    (h : (m.map Prod.fst).Nodup) : ((cluster_step m item).map Prod.fst).Nodup := by
  rw [cluster_step_shape, keys_updateAllF]
  split
  · exact h
  · next hnone =>
      have hnotmem : (record_new_cluster item).fingerprint ∉ m.map Prod.fst := by
        rw [← lookup_eq_none_iff]
        cases hm : m.lookup (record_new_cluster item).fingerprint with
        | none => rfl
        | some c => rw [hm] at hnone; simp at hnone
      simp [List.nodup_append, h, hnotmem]

theorem nodup_keys_cluster_logs (logs : List PyDict) :
    ((cluster_logs logs).map Prod.fst).Nodup := by
  unfold cluster_logs
  have : ∀ (m : ClusterMap), (m.map Prod.fst).Nodup →
      ((logs.foldl cluster_step m).map Prod.fst).Nodup := by
    induction logs with
    | nil => intro m hm; exact hm
    | cons item rest ih =>
        intro m hm
        rw [List.foldl_cons]
        exact ih _ (nodup_keys_cluster_step m item hm)
  exact this [] (by simp)

/-- C8: `merge_baseline_counts` independently clusters the baseline
records; pointwise on fingerprints, an incident cluster whose fingerprint
also appears in the baseline map gets its `count_baseline` set to that
baseline cluster's count, other incident clusters are unchanged, and
baseline-only fingerprints are dropped (the key set is exactly the
incident key set).  In particular the two-incident/one-baseline example
yields a single cluster with `count_incident = 2`, `count_baseline = 1`. -/
theorem C8_merge_baseline_counts :
    (∀ (inc : ClusterMap) (bl : List PyDict) (fp : String),
      (merge_baseline_counts inc bl).lookup fp =
        match inc.lookup fp, (cluster_logs bl).lookup fp with
        | some c, some b => some { c with count_baseline := b.count_incident }
        | some c, Option.none => some c
        | Option.none, _ => Option.none) ∧
    (∀ (inc : ClusterMap) (bl : List PyDict),
      (merge_baseline_counts inc bl).map Prod.fst = inc.map Prod.fst) ∧
    (merge_baseline_counts (cluster_logs [recInc1, recInc2]) [recBase9]).map
        (fun kv => (kv.2.count_incident, kv.2.count_baseline)) = [(2, 1)] := by
  refine ⟨?_, ?_, ?_⟩
  · intro inc bl fp
    exact lookup_foldl_merge_step (cluster_logs bl) fp (nodup_keys_cluster_logs bl) inc
  · intro inc bl
    exact keys_foldl_merge_step (cluster_logs bl) inc
  · decide

/-! ### C10 — candidate scores lie in the unit interval -/
theorem clamp01_bounds (x : ℚ) : 0 ≤ clamp01 x ∧ clamp01 x ≤ 1 := by
  unfold clamp01
  split_ifs with h1 h2 <;> constructor <;> linarith

/-- C10: every candidate produced by the scoring engine — log-cluster,
endpoint, or dependency, for any inputs — has a score in `[0, 1]`. -/
theorem C10_scores_unit_interval :
    (∀ (clusters : List LogCluster) (limit : Nat) (c : Candidate),
        c ∈ score_log_clusters clusters limit → 0 ≤ c.score ∧ c.score ≤ 1) ∧
    (∀ (mode : String) (einc ebase : List (String × EndpointStats)) (c : Candidate),
        c ∈ endpointCandidates mode einc ebase → 0 ≤ c.score ∧ c.score ≤ 1) ∧
    (∀ (dinc dbase : List (String × DepStats)) (c : Candidate),
        c ∈ dependencyCandidates dinc dbase → 0 ≤ c.score ∧ c.score ≤ 1) := by
  refine ⟨?_, ?_, ?_⟩
  · intro clusters limit c hc
    rw [score_log_clusters, mem_sortDescBy] at hc
    obtain ⟨cl, -, rfl⟩ := List.mem_map.mp hc
    exact clamp01_bounds _
  · intro mode einc ebase c hc
    unfold endpointCandidates at hc
    obtain ⟨r, -, hr⟩ := List.mem_filterMap.mp hc
    obtain ⟨delta, res, inc, base⟩ := r
    by_cases hd : delta ≤ 0
    · simp [hd] at hr
    · simp only [hd, if_false] at hr
      cases hr
      constructor
      · exact le_min (by norm_num) (le_max_left _ _)
      · exact le_trans (min_le_left _ _) (by norm_num)
  · intro dinc dbase c hc
    unfold dependencyCandidates at hc
    obtain ⟨r, -, hr⟩ := List.mem_filterMap.mp hc
    by_cases hd : r.durD ≤ 0 ∧ r.errD ≤ 0
    · simp [hd] at hr
    · simp only [hd, if_false] at hr
      cases hr
      constructor
      · exact le_min (by norm_num) (le_min (by norm_num) (le_max_left _ _))
      · exact le_trans (min_le_left _ _) (by norm_num)

/-- C10 witness: the theorem applied to one concrete candidate of each
kind. -/
theorem C10_witness :
    (0 ≤ witnessLogCand.score ∧ witnessLogCand.score ≤ 1) ∧
    (0 ≤ witnessEndpointCand.score ∧ witnessEndpointCand.score ≤ 1) ∧
    (0 ≤ witnessDepCand.score ∧ witnessDepCand.score ≤ 1) := by
  refine ⟨C10_scores_unit_interval.1 [witnessLogCluster] 10 witnessLogCand ?_,
    C10_scores_unit_interval.2.1 "latency" [("GET /x", witnessEndpointStats)] []
      witnessEndpointCand ?_,
    C10_scores_unit_interval.2.2 [("db", depHot)] [] witnessDepCand ?_⟩
  · norm_num [score_log_clusters, sortDescBy, insertDescBy, witnessLogCluster,
      witnessLogCand, log_cluster_score, clamp01, pytake]
    rfl
  · have hmode : ("latency" = "errors") = False := by simp
    norm_num [endpointCandidates, sortDescBy, insertDescBy, witnessEndpointStats,
      witnessEndpointCand, statOrZero, emptyEndpointStats, List.filterMap_cons, hmode]
    rfl
  · norm_num [dependencyCandidates, sortDescBy, insertDescBy, depHot, witnessDepCand,
      statOrZero, emptyDepStats, List.filterMap_cons]
    rfl

end DDRca
